import Mathlib

/-!
Shallow embedding of the lead-lifecycle core of the buyer-management
repository: the budget/bhk validation in `buyer-service.ts`, the
diff/history engine of `updateBuyerWithHistory`, the persistence layer of
`prisma-data.ts` (modelled as an in-memory list of rows), the fixed-window
rate limiter of `rate-limiter.ts`, and the `POST /api/buyers` and
`PUT /api/buyers/[id]` route handlers.

The PUT handler passes the raw parsed request body — including the
`updatedAt` version token when supplied — into `updateBuyerWithHistory`,
whose diff loop compares with JavaScript `!==`. For primitive values
`!==` is structural inequality, but for objects (the `tags` array, the
stored `Date`) it compares references, and a JSON-parsed body never
aliases a stored object; `jsStrictNeq` embeds exactly that.
-/

namespace Spec2Proof

/-- Runtime values held by a lead record's fields, mirroring the values
the TypeScript code manipulates. `vArr` is the tags array (an array of
strings in the schema); `vDate` is a Prisma `Date` object carried by its
epoch-millisecond payload; `vDateStr` is a date-format string represented
by its `new Date(...)` parse (the embedded code only ever compares such a
string against non-strings, so identifying it with its parse loses
nothing). -/
inductive Value where
  | vNull : Value
  | vStr : String → Value
  | vNum : Int → Value
  | vBool : Bool → Value
  | vArr : List String → Value
  | vDate : Int → Value
  | vDateStr : Int → Value
  deriving DecidableEq, Repr

/-- JavaScript truthiness of a `Value` (`null`, `0`, `""`, `false` are
falsy; arrays, Date objects and date strings are truthy). -/
def jsTruthy : Value → Bool
  | Value.vNull => false
  | Value.vStr s => !(s == "")
  | Value.vNum n => !(n == 0)
  | Value.vBool b => b
  | Value.vArr _ => true
  | Value.vDate _ => true
  | Value.vDateStr _ => true

/-- JavaScript `>` restricted to the numeric values the budget fields
carry (the source only evaluates it after both operands pass the
truthiness guard, hence on numbers). -/
def jsNumGt : Value → Value → Bool
  | Value.vNum a, Value.vNum b => decide (a > b)
  | _, _ => false

/-- Values that are JavaScript objects (arrays and Dates): for them `!==`
compares references, not contents. -/
def isObjectVal : Value → Bool
  | Value.vArr _ => true
  | Value.vDate _ => true
  | _ => false

/-- JavaScript `!==` between a value taken from the JSON-parsed request
body and a value read from the stored row. On primitives it is structural
inequality; whenever either side is an object (the tags array, the stored
Date) it is `true`, because a freshly parsed body value never aliases a
stored object. -/
def jsStrictNeq (supplied stored : Value) : Bool :=
  isObjectVal supplied || isObjectVal stored || decide (supplied ≠ stored)

/-- The comparison `new Date(body.updatedAt) < serverUpdatedAt` of the
PUT version check: a date-format string is represented by its parse, a
numeric token parses as an epoch timestamp, and any other value yields an
invalid date whose comparison is false (`NaN < t` is false in JS). -/
def staleToken (tokenVal : Value) (stored : Int) : Bool :=
  match tokenVal with
  | Value.vDateStr t => decide (t < stored)
  | Value.vNum t => decide (t < stored)
  | _ => false

/-- The patchable payload fields of a Buyer row (`Partial<Omit<Buyer,
"id" | "updatedAt" | "createdAt">>` in the source's type). -/
inductive Field where
  | fullName | email | phone | city | propertyType | bhk | purpose
  | budgetMin | budgetMax | timeline | source | status | notes | tags
  | ownerId
  deriving DecidableEq, Repr

/-- A key of the parsed request body as it exists at runtime: a payload
field, or the `updatedAt` version token that the client's edit form sends
along and that `Object.entries` iterates like any other key. -/
inductive BodyKey where
  | payload : Field → BodyKey
  | updatedAtKey : BodyKey
  deriving DecidableEq, Repr

/-- A Buyer row as stored by the persistence layer. Scalar payload fields
are dynamic `Value`s as in the JavaScript runtime; `updatedAt` and
`createdAt` are the timestamps of the stored `Date` objects. -/
structure Buyer where
  id : String
  fullName : Value
  email : Value
  phone : Value
  city : Value
  propertyType : Value
  bhk : Value
  purpose : Value
  budgetMin : Value
  budgetMax : Value
  timeline : Value
  source : Value
  status : Value
  notes : Value
  tags : Value
  ownerId : Value
  updatedAt : Int
  createdAt : Int
  deriving DecidableEq, Repr

/-- Dynamic read `currentBuyer[key]` of a payload field. -/
def getField (b : Buyer) : Field → Value
  | Field.fullName => b.fullName
  | Field.email => b.email
  | Field.phone => b.phone
  | Field.city => b.city
  | Field.propertyType => b.propertyType
  | Field.bhk => b.bhk
  | Field.purpose => b.purpose
  | Field.budgetMin => b.budgetMin
  | Field.budgetMax => b.budgetMax
  | Field.timeline => b.timeline
  | Field.source => b.source
  | Field.status => b.status
  | Field.notes => b.notes
  | Field.tags => b.tags
  | Field.ownerId => b.ownerId

/-- Dynamic write of a payload field, as done by a spread/`data` patch. -/
def setField (b : Buyer) : Field → Value → Buyer
  | Field.fullName, v => { b with fullName := v }
  | Field.email, v => { b with email := v }
  | Field.phone, v => { b with phone := v }
  | Field.city, v => { b with city := v }
  | Field.propertyType, v => { b with propertyType := v }
  | Field.bhk, v => { b with bhk := v }
  | Field.purpose, v => { b with purpose := v }
  | Field.budgetMin, v => { b with budgetMin := v }
  | Field.budgetMax, v => { b with budgetMax := v }
  | Field.timeline, v => { b with timeline := v }
  | Field.source, v => { b with source := v }
  | Field.status, v => { b with status := v }
  | Field.notes, v => { b with notes := v }
  | Field.tags, v => { b with tags := v }
  | Field.ownerId, v => { b with ownerId := v }

/-- Dynamic read `(currentBuyer as Record<string, unknown>)[key]` over
all body keys: the `updatedAt` key reads the stored `Date` object. -/
def getDynamic (b : Buyer) : BodyKey → Value
  | BodyKey.payload k => getField b k
  | BodyKey.updatedAtKey => Value.vDate b.updatedAt

/-- A parsed mutation request body: its key/value entries in
`Object.entries` order (keys are unique in a JS object). -/
abbrev Body := List (BodyKey × Value)

/-- `buyerData.key`: `some v` when the key is present with value `v`,
`none` when the key is absent (JS `undefined`). -/
def bodyGet (buyerData : Body) (k : BodyKey) : Option Value :=
  (buyerData.find? (fun kv => kv.1 == k)).map (fun kv => kv.2)

/-- JavaScript `a ?? b` where `a` is a possibly-absent property: both
`undefined` (absent key) and `null` fall through to `b`. -/
def jsCoalesce (a : Option Value) (b : Value) : Value :=
  match a with
  | none => b
  | some Value.vNull => b
  | some v => v

/-- `validateBudget` from `buyer-service.ts`: returns `true` exactly when
the source function throws, i.e. when `budgetMin && budgetMax &&
budgetMin > budgetMax` under JS truthiness. -/
def validateBudget (budgetMin budgetMax : Value) : Bool :=
  jsTruthy budgetMin && jsTruthy budgetMax && jsNumGt budgetMin budgetMax

/-- `["Apartment", "Villa"].includes(propertyType)`. -/
def isResidential (propertyType : Value) : Bool :=
  propertyType == Value.vStr "Apartment" || propertyType == Value.vStr "Villa"

/-- The diff payload of a history row: a `created`/`deleted` snapshot or a
map from changed body key to old/new value pair. -/
inductive HistDiff where
  | created : Buyer → HistDiff
  | deleted : Buyer → HistDiff
  | changes : List (BodyKey × Value × Value) → HistDiff
  deriving DecidableEq, Repr

/-- A BuyerHistory row. -/
structure HistoryEntry where
  buyerId : String
  changedBy : Value
  diff : HistDiff
  deriving DecidableEq, Repr

/-- The persistence collaborator's state: buyer rows and append-only
history rows (appended newest-last). -/
structure DB where
  buyers : List Buyer
  history : List HistoryEntry
  deriving DecidableEq, Repr

/-- `getBuyerById` from `prisma-data.ts`: `findUnique` on the id. -/
def getBuyerById (db : DB) (id : String) : Option Buyer :=
  db.buyers.find? (fun b => b.id == id)

/-- Spread of a body over a row: each payload key overwrites its field; a
body `updatedAt` entry has no effect because `prisma-data.ts` writes
`{ ...buyerData, updatedAt: new Date() }`, where the explicit property
after the spread wins. -/
def applyBody (b : Buyer) (buyerData : Body) : Buyer :=
  buyerData.foldl (fun acc kv =>
    match kv.1 with
    | BodyKey.payload k => setField acc k kv.2
    | BodyKey.updatedAtKey => acc) b

/-- `updateBuyer` from `prisma-data.ts`: `prisma.buyer.update` with
`data: { ...buyerData, updatedAt: new Date() }`; fails (throws) when the
row does not exist, hence `Option`. -/
def updateBuyer (db : DB) (id : String) (buyerData : Body) (now : Int) :
    Option (DB × Buyer) :=
  match getBuyerById db id with
  | none => none
  | some b =>
    let b' : Buyer := { applyBody b buyerData with updatedAt := now }
    some ({ db with buyers := db.buyers.map (fun x => if x.id == id then b' else x) }, b')

/-- Input of `createNewBuyer`: all buyer fields except `id`, `updatedAt`,
`createdAt`. -/
structure BuyerInput where
  fullName : Value
  email : Value
  phone : Value
  city : Value
  propertyType : Value
  bhk : Value
  purpose : Value
  budgetMin : Value
  budgetMax : Value
  timeline : Value
  source : Value
  status : Value
  notes : Value
  tags : Value
  ownerId : Value
  deriving DecidableEq, Repr

/-- `createBuyer` from `prisma-data.ts`: the database assigns the id and
both timestamps and stores every supplied field unchanged. -/
def mkBuyer (input : BuyerInput) (newId : String) (now : Int) : Buyer :=
  { id := newId
    fullName := input.fullName
    email := input.email
    phone := input.phone
    city := input.city
    propertyType := input.propertyType
    bhk := input.bhk
    purpose := input.purpose
    budgetMin := input.budgetMin
    budgetMax := input.budgetMax
    timeline := input.timeline
    source := input.source
    status := input.status
    notes := input.notes
    tags := input.tags
    ownerId := input.ownerId
    updatedAt := now
    createdAt := now }

/-- Typed outcomes of the service functions (each corresponds to one
`throw new Error(...)` site in `buyer-service.ts`). The ownerId check of
`createNewBuyer` runs only after `createBuyer` has already persisted the
row, so that error carries the database with the orphaned row. -/
inductive ServiceError where
  | budgetRangeError
  | bhkRequiredError
  | ownerIdMissing : DB → ServiceError
  | notFound
  deriving DecidableEq, Repr

/-- `createNewBuyer` from `buyer-service.ts`: budget check, residential
bhk check, row creation via `createBuyer`, then — only after the row is
persisted — the ownerId check (throwing leaves the orphaned row with no
history), and finally a `created` history snapshot. -/
def createNewBuyer (db : DB) (buyerData : BuyerInput) (newId : String) (now : Int) :
    Except ServiceError (DB × Buyer) :=
  if validateBudget buyerData.budgetMin buyerData.budgetMax then
    Except.error ServiceError.budgetRangeError
  else if isResidential buyerData.propertyType && !jsTruthy buyerData.bhk then
    Except.error ServiceError.bhkRequiredError
  else
    let buyer := mkBuyer buyerData newId now
    let db1 : DB := { db with buyers := db.buyers ++ [buyer] }
    if !jsTruthy buyer.ownerId then
      Except.error (ServiceError.ownerIdMissing db1)
    else
      Except.ok
        ({ db1 with history := db1.history ++
            [{ buyerId := buyer.id, changedBy := buyer.ownerId, diff := HistDiff.created buyer }] },
         buyer)

/-- The diff loop of `updateBuyerWithHistory`: for each body entry whose
value differs from the stored one under JS `!==` (`jsStrictNeq`), record
the old/new pair. -/
def computeDiff (currentBuyer : Buyer) (buyerData : Body) :
    List (BodyKey × Value × Value) :=
  buyerData.filterMap (fun kv =>
    if jsStrictNeq kv.2 (getDynamic currentBuyer kv.1) then
      some (kv.1, getDynamic currentBuyer kv.1, kv.2)
    else none)

/-- `updateBuyerWithHistory` from `buyer-service.ts`: fetch the row,
validate budget and bhk on the `??`-merged candidate, unconditionally run
the persistence update, then append a history row only when the computed
diff is non-empty. It receives the raw parsed body, version token
included. -/
def updateBuyerWithHistory (db : DB) (id : String) (buyerData : Body)
    (userId : String) (now : Int) : Except ServiceError (DB × Buyer) :=
  match getBuyerById db id with
  | none => Except.error ServiceError.notFound
  | some currentBuyer =>
    let budgetMin :=
      jsCoalesce (bodyGet buyerData (BodyKey.payload Field.budgetMin)) currentBuyer.budgetMin
    let budgetMax :=
      jsCoalesce (bodyGet buyerData (BodyKey.payload Field.budgetMax)) currentBuyer.budgetMax
    if jsTruthy budgetMin && jsTruthy budgetMax && jsNumGt budgetMin budgetMax then
      Except.error ServiceError.budgetRangeError
    else
      let propertyType :=
        jsCoalesce (bodyGet buyerData (BodyKey.payload Field.propertyType)) currentBuyer.propertyType
      let bhk := jsCoalesce (bodyGet buyerData (BodyKey.payload Field.bhk)) currentBuyer.bhk
      if isResidential propertyType && !jsTruthy bhk then
        Except.error ServiceError.bhkRequiredError
      else
        match updateBuyer db id buyerData now with
        | none => Except.error ServiceError.notFound
        | some (db1, updatedBuyer) =>
          let diff := computeDiff currentBuyer buyerData
          if diff.length > 0 then
            Except.ok
              ({ db1 with history := db1.history ++
                  [{ buyerId := id, changedBy := Value.vStr userId, diff := HistDiff.changes diff }] },
               updatedBuyer)
          else
            Except.ok (db1, updatedBuyer)

/-- `getBuyersWithPagination` from `buyer-service.ts` forwards a filter
object with these optional keys; `getBuyers` in `prisma-data.ts` declares
only the first five and never reads `ownerId`. -/
structure Filters where
  searchTerm : Option String
  city : Option String
  propertyType : Option String
  status : Option String
  timeline : Option String
  ownerId : Option String
  deriving DecidableEq, Repr

/-- Contiguous-sublist test on character lists, used to model the
`contains` string filter of the persistence query. -/
def charsContain (needle hay : List Char) : Bool :=
  match hay with
  | [] => needle.isEmpty
  | _ :: t => needle.isPrefixOf hay || charsContain needle t

/-- Case-sensitive `contains` on strings. -/
def strContains (hay needle : String) : Bool :=
  charsContain needle.toList hay.toList

/-- `contains` with `mode: "insensitive"`. -/
def strContainsCI (hay needle : String) : Bool :=
  strContains hay.toLower needle.toLower

/-- Case-insensitive `contains` lifted to a nullable string field (a
`null` column never matches a `contains` filter). -/
def valContainsCI (v : Value) (t : String) : Bool :=
  match v with
  | Value.vStr s => strContainsCI s t
  | _ => false

/-- Case-sensitive `contains` lifted to a nullable string field. -/
def valContains (v : Value) (t : String) : Bool :=
  match v with
  | Value.vStr s => strContains s t
  | _ => false

/-- The `OR` free-text clause built by `getBuyers` when `filters.searchTerm`
is truthy: insensitive contains on fullName/email/notes, sensitive on
phone. -/
def searchOk (term : Option String) (b : Buyer) : Bool :=
  match term with
  | none => true
  | some t =>
    if t == "" then true
    else
      valContainsCI b.fullName t || valContains b.phone t ||
        valContainsCI b.email t || valContainsCI b.notes t

/-- One enum equality clause of the `where` object: applied only when the
filter value is truthy and not `"all"`, as in `getBuyers`. -/
def enumFilterOk (fval : Option String) (actual : Value) : Bool :=
  match fval with
  | none => true
  | some c => if c == "" || c == "all" then true else actual == Value.vStr c

/-- The full `where` object of `getBuyers`. `Filters.ownerId` is absent
here because the source function never consults it. -/
def matchesWhere (f : Filters) (b : Buyer) : Bool :=
  searchOk f.searchTerm b &&
    enumFilterOk f.city b.city &&
    enumFilterOk f.propertyType b.propertyType &&
    enumFilterOk f.status b.status &&
    enumFilterOk f.timeline b.timeline

/-- Insert a row into a list kept in decreasing `updatedAt` order. -/
def insertByUpdatedAtDesc (b : Buyer) : List Buyer → List Buyer
  | [] => [b]
  | x :: xs =>
    if x.updatedAt < b.updatedAt then b :: x :: xs
    else x :: insertByUpdatedAtDesc b xs

/-- `orderBy: { updatedAt: "desc" }`. -/
def sortByUpdatedAtDesc (l : List Buyer) : List Buyer :=
  l.foldr insertByUpdatedAtDesc []

/-- `getBuyers` from `prisma-data.ts`: filter by the `where` object and
sort by `updatedAt` descending. -/
def getBuyers (db : DB) (filters : Filters) : List Buyer :=
  sortByUpdatedAtDesc (db.buyers.filter (matchesWhere filters))

/-- `getBuyersWithPagination` from `buyer-service.ts`: fetch the filtered
rows, slice out one page, report the pre-pagination total. -/
def getBuyersWithPagination (db : DB) (page limit : Nat) (filters : Filters) :
    List Buyer × Nat :=
  let buyers := getBuyers db filters
  ((buyers.drop ((page - 1) * limit)).take limit, buyers.length)

/-- One window entry of the rate limiter's in-memory store. -/
structure RateLimitEntry where
  count : Nat
  resetTime : Int
  deriving DecidableEq, Repr

/-- The process-wide `rateLimitStore` map, as an association list over
client ids. -/
abbrev RateLimitStore := List (String × RateLimitEntry)

/-- `RATE_LIMIT_WINDOW` (one minute, in milliseconds). -/
def RATE_LIMIT_WINDOW : Int := 60000

/-- `RATE_LIMIT_MAX_REQUESTS`. -/
def RATE_LIMIT_MAX_REQUESTS : Nat := 10

/-- `rateLimitStore.get(clientId)`. -/
def storeGet (store : RateLimitStore) (clientId : String) : Option RateLimitEntry :=
  (store.find? (fun kv => kv.1 == clientId)).map (fun kv => kv.2)

/-- `rateLimitStore.set(clientId, e)`: replace the entry if present,
append it otherwise. -/
def storeSet (store : RateLimitStore) (clientId : String) (e : RateLimitEntry) :
    RateLimitStore :=
  if (store.find? (fun kv => kv.1 == clientId)).isSome then
    store.map (fun kv => if kv.1 == clientId then (clientId, e) else kv)
  else
    store ++ [(clientId, e)]

/-- `isRateLimited` from `rate-limiter.ts`. Returns the boolean the source
returns (`true` = rejected) together with the updated store. -/
def isRateLimited (store : RateLimitStore) (clientId : String) (now : Int) :
    Bool × RateLimitStore :=
  match storeGet store clientId with
  | none =>
    (false, storeSet store clientId { count := 1, resetTime := now + RATE_LIMIT_WINDOW })
  | some clientData =>
    if clientData.resetTime ≤ now then
      (false, storeSet store clientId { count := 1, resetTime := now + RATE_LIMIT_WINDOW })
    else if clientData.count < RATE_LIMIT_MAX_REQUESTS then
      (false, storeSet store clientId { count := clientData.count + 1, resetTime := clientData.resetTime })
    else
      (true, store)

/-- `getRateLimitHeaders` from `rate-limiter.ts`, reduced to the numeric
payloads of the three headers: (limit, remaining, reset). -/
def getRateLimitHeaders (store : RateLimitStore) (clientId : String) :
    Nat × Nat × Int :=
  match storeGet store clientId with
  | none => (RATE_LIMIT_MAX_REQUESTS, RATE_LIMIT_MAX_REQUESTS, 0)
  | some clientData =>
    (RATE_LIMIT_MAX_REQUESTS, RATE_LIMIT_MAX_REQUESTS - clientData.count, clientData.resetTime)

/-- Feed a list of request timestamps of one client through
`isRateLimited`, collecting the returned booleans (`true` = rejected). -/
def rlRun (store : RateLimitStore) (clientId : String) :
    List Int → List Bool × RateLimitStore
  | [] => ([], store)
  | t :: ts =>
    let step := isRateLimited store clientId t
    let rest := rlRun step.2 clientId ts
    (step.1 :: rest.1, rest.2)

/-- The whole server's mutable state: the database owned by the
persistence collaborator and the process-wide rate-limit store. -/
structure ServerState where
  db : DB
  rl : RateLimitStore
  deriving DecidableEq, Repr

/-- Outcomes of the `PUT /api/buyers/[id]` handler, one per `return`
site (HTTP 401, 404, 409, 400, 200). -/
inductive PutResult where
  | unauthorized
  | notFoundResult
  | conflict
  | badRequest : ServiceError → PutResult
  | ok : Buyer → PutResult
  deriving DecidableEq, Repr

/-- The continuation of the PUT handler after a passed (or skipped)
version check: `updateBuyerWithHistory` on the same parsed body — version
token included — mapped to the HTTP result. -/
def putAfterVersionCheck (st : ServerState) (uid id : String) (body : Body)
    (now : Int) : PutResult × ServerState :=
  match updateBuyerWithHistory st.db id body uid now with
  | Except.error e => (PutResult.badRequest e, st)
  | Except.ok (db', b') => (PutResult.ok b', { st with db := db' })

/-- The `PUT /api/buyers/[id]` handler: auth, ownership, the optional
`body.updatedAt` version check (HTTP 409 on a stale token), then the
service update on the same raw body. The handler never touches the
rate-limit store. -/
def PUT (st : ServerState) (userId : Option String) (id : String)
    (body : Body) (now : Int) : PutResult × ServerState :=
  match userId with
  | none => (PutResult.unauthorized, st)
  | some uid =>
    match getBuyerById st.db id with
    | none => (PutResult.notFoundResult, st)
    | some currentBuyer =>
      if currentBuyer.ownerId ≠ Value.vStr uid then
        (PutResult.unauthorized, st)
      else
        let stale :=
          match bodyGet body BodyKey.updatedAtKey with
          | none => false
          | some tokenVal => jsTruthy tokenVal && staleToken tokenVal currentBuyer.updatedAt
        if stale then (PutResult.conflict, st)
        else putAfterVersionCheck st uid id body now

/-- Outcomes of the `POST /api/buyers` handler (HTTP 429, 401, 400, 201). -/
inductive PostResult where
  | rateLimitedResult
  | unauthorizedPost
  | badRequestPost : ServiceError → PostResult
  | createdResult : Buyer → PostResult
  deriving DecidableEq, Repr

/-- The `POST /api/buyers` handler: the rate limiter runs first, before
auth, body parsing, validation, persistence, and history; the body's
`ownerId` is overridden with the authenticated user id. A missing-ownerId
failure surfaces after the row write, so the state keeps the orphaned
row. -/
def POST (st : ServerState) (clientId : String) (userId : Option String)
    (body : BuyerInput) (newId : String) (now : Int) :
    PostResult × ServerState :=
  let rlStep := isRateLimited st.rl clientId now
  if rlStep.1 then
    (PostResult.rateLimitedResult, { st with rl := rlStep.2 })
  else
    match userId with
    | none => (PostResult.unauthorizedPost, { st with rl := rlStep.2 })
    | some uid =>
      match createNewBuyer st.db { body with ownerId := Value.vStr uid } newId now with
      | Except.error (ServiceError.ownerIdMissing dbOrphan) =>
        (PostResult.badRequestPost (ServiceError.ownerIdMissing dbOrphan),
         { db := dbOrphan, rl := rlStep.2 })
      | Except.error e => (PostResult.badRequestPost e, { st with rl := rlStep.2 })
      | Except.ok (db', b) => (PostResult.createdResult b, { db := db', rl := rlStep.2 })

/-- An empty database. -/
def emptyDB : DB := { buyers := [], history := [] }

/-- A concrete residential buyer row used in concrete instantiations. -/
def sampleBuyer : Buyer :=
  { id := "b1"
    fullName := Value.vStr "John Doe"
    email := Value.vNull
    phone := Value.vStr "1234567890"
    city := Value.vStr "Mohali"
    propertyType := Value.vStr "Apartment"
    bhk := Value.vStr "TWO"
    purpose := Value.vStr "Buy"
    budgetMin := Value.vNum 500000
    budgetMax := Value.vNum 750000
    timeline := Value.vStr "Exploring"
    source := Value.vStr "Website"
    status := Value.vStr "New"
    notes := Value.vNull
    tags := Value.vArr []
    ownerId := Value.vStr "u1"
    updatedAt := 100
    createdAt := 50 }

/-- A second concrete buyer row, owned by a different user. -/
def otherBuyer : Buyer :=
  { sampleBuyer with id := "b2", ownerId := Value.vStr "u2", updatedAt := 90 }

/-- A database holding just `sampleBuyer`. -/
def sampleDB : DB := { buyers := [sampleBuyer], history := [] }

/-- A concrete valid residential create request body. -/
def baseInput : BuyerInput :=
  { fullName := Value.vStr "John Doe"
    email := Value.vNull
    phone := Value.vStr "1234567890"
    city := Value.vStr "Mohali"
    propertyType := Value.vStr "Apartment"
    bhk := Value.vStr "TWO"
    purpose := Value.vStr "Buy"
    budgetMin := Value.vNull
    budgetMax := Value.vNull
    timeline := Value.vStr "Exploring"
    source := Value.vStr "Website"
    status := Value.vStr "New"
    notes := Value.vNull
    tags := Value.vArr []
    ownerId := Value.vStr "u1" }

/-- A non-residential create request that still supplies a bhk value. -/
def plotWithBhkInput : BuyerInput :=
  { baseInput with propertyType := Value.vStr "Plot" }

/-- A residential create request with a null bhk. -/
def aptNullBhkInput : BuyerInput :=
  { baseInput with bhk := Value.vNull }

/-- A create request with `budgetMin = 5 > 0 = budgetMax`. -/
def zeroMaxInput : BuyerInput :=
  { baseInput with propertyType := Value.vStr "Plot", bhk := Value.vNull,
                   budgetMin := Value.vNum 5, budgetMax := Value.vNum 0 }

/-- A create request with a well-ordered budget range. -/
def okBudgetInput : BuyerInput :=
  { baseInput with budgetMin := Value.vNum 2, budgetMax := Value.vNum 3 }

/-- The row `createNewBuyer` persists for `okBudgetInput`. -/
def okBudgetBuyer : Buyer := mkBuyer okBudgetInput "b9" 100

/-- The database state after creating `okBudgetBuyer` in `emptyDB`. -/
def okBudgetDB : DB :=
  { buyers := [okBudgetBuyer]
    history := [{ buyerId := "b9", changedBy := Value.vStr "u1",
                  diff := HistDiff.created okBudgetBuyer }] }

/-- A rate-limit store whose window for client `"c"` is exhausted until
time 1000. -/
def exhaustedRL : RateLimitStore :=
  [("c", { count := 10, resetTime := 1000 })]

/-- A filter object selecting only `ownerId = "u1"`. -/
def ownerFilter : Filters :=
  { searchTerm := none, city := none, propertyType := none,
    status := none, timeline := none, ownerId := some "u1" }

/-- C1: in the PUT handler, a missing version token skips the check and
the handler proceeds to the service update on the same body; a supplied
date-string token is accepted (the handler proceeds) exactly when it is
`>=` the stored `updatedAt`, while a stale token yields the Conflict
result with the server state unchanged (no persistence write, no history
append); the proceed path can never yield Conflict. -/
theorem put_version_check (db : DB) (rl : RateLimitStore) (uid id : String)
    (body : Body) (now : Int) (cur : Buyer)
    (hfind : getBuyerById db id = some cur)
    (hown : cur.ownerId = Value.vStr uid) :
    (∀ t : Int, bodyGet body BodyKey.updatedAtKey = some (Value.vDateStr t) →
      (t < cur.updatedAt →
        PUT ⟨db, rl⟩ (some uid) id body now = (PutResult.conflict, ⟨db, rl⟩)) ∧
      (cur.updatedAt ≤ t →
        PUT ⟨db, rl⟩ (some uid) id body now
          = putAfterVersionCheck ⟨db, rl⟩ uid id body now)) ∧
    (bodyGet body BodyKey.updatedAtKey = none →
      PUT ⟨db, rl⟩ (some uid) id body now
        = putAfterVersionCheck ⟨db, rl⟩ uid id body now) ∧
    (∀ (res : PutResult) (st' : ServerState),
      putAfterVersionCheck ⟨db, rl⟩ uid id body now = (res, st') →
      res ≠ PutResult.conflict) := by
  refine ⟨?_, ?_, ?_⟩
  · intro t htok
    constructor
    · intro ht
      simp [PUT, hfind, hown, htok, staleToken, jsTruthy, ht]
    · intro ht
      simp [PUT, hfind, hown, htok, staleToken, jsTruthy, not_lt.mpr ht]
  · intro htok
    simp [PUT, hfind, hown, htok]
  · intro res st' h
    simp only [putAfterVersionCheck] at h
    split at h
    · injection h with h1 h2
      subst h1
      simp
    · injection h with h1 h2
      subst h1
      simp

/-- Witness for `put_version_check`: a concrete stale token (parse 50 <
stored 100) yields Conflict and leaves the state untouched. -/
theorem put_version_check_witness :
    PUT ⟨sampleDB, []⟩ (some "u1") "b1" [(BodyKey.updatedAtKey, Value.vDateStr 50)] 200
      = (PutResult.conflict, ⟨sampleDB, []⟩) :=
  ((put_version_check sampleDB [] "u1" "b1" [(BodyKey.updatedAtKey, Value.vDateStr 50)] 200
      sampleBuyer (by decide) (by decide)).1 50 (by decide)).1 (by decide)

/-- Unfolding of `applyBody` at a payload-field entry. -/
theorem applyBody_cons_payload (b : Buyer) (k : Field) (v : Value) (rest : Body) :
    applyBody b ((BodyKey.payload k, v) :: rest) = applyBody (setField b k v) rest := rfl

/-- Unfolding of `applyBody` at an `updatedAt` entry: the spread's token
value is overridden, so the row is untouched. -/
theorem applyBody_cons_updatedAt (b : Buyer) (v : Value) (rest : Body) :
    applyBody b ((BodyKey.updatedAtKey, v) :: rest) = applyBody b rest := rfl

/-- `setField` never touches the row id. -/
theorem setField_id (b : Buyer) (k : Field) (v : Value) :
    (setField b k v).id = b.id := by
  cases k <;> rfl

/-- `applyBody` never touches the row id. -/
theorem applyBody_id (buyerData : Body) :
    ∀ b : Buyer, (applyBody b buyerData).id = b.id := by
  induction buyerData with
  | nil => intro b; rfl
  | cons kv rest ih =>
    rcases kv with ⟨k1, v1⟩
    intro b
    cases k1 with
    | payload k => rw [applyBody_cons_payload, ih, setField_id]
    | updatedAtKey => rw [applyBody_cons_updatedAt, ih]

/-- The diff map is empty exactly when every body entry compares equal to
the stored value under JS `!==`. -/
theorem computeDiff_eq_nil_iff (cur : Buyer) (buyerData : Body) :
    computeDiff cur buyerData = []
      ↔ ∀ kv ∈ buyerData, jsStrictNeq kv.2 (getDynamic cur kv.1) = false := by
  simp only [computeDiff, List.filterMap_eq_nil_iff]
  constructor
  · intro h kv hkv
    have h2 := h kv hkv
    cases hc : jsStrictNeq kv.2 (getDynamic cur kv.1) with
    | false => rfl
    | true =>
      rw [if_pos hc] at h2
      exact Option.noConfusion h2
  · intro h kv hkv
    rw [if_neg (by simp [h kv hkv])]

/-- Membership in the diff map: exactly the body entries whose value
differs from the stored one under JS `!==`, paired with the stored value
as `oldValue`. -/
theorem mem_computeDiff_iff (cur : Buyer) (buyerData : Body) (k : BodyKey) (o n : Value) :
    (k, o, n) ∈ computeDiff cur buyerData ↔
      ((k, n) ∈ buyerData ∧ o = getDynamic cur k ∧
        jsStrictNeq n (getDynamic cur k) = true) := by
  simp only [computeDiff, List.mem_filterMap]
  constructor
  · rintro ⟨⟨k1, v1⟩, hmem, hf⟩
    cases hc : jsStrictNeq v1 (getDynamic cur k1) with
    | true =>
      rw [if_pos hc] at hf
      simp only [Option.some.injEq, Prod.mk.injEq] at hf
      obtain ⟨hk, ho, hn⟩ := hf
      subst hk
      subst hn
      exact ⟨hmem, ho.symm, hc⟩
    | false =>
      rw [if_neg (by simp [hc])] at hf
      exact Option.noConfusion hf
  · rintro ⟨hmem, ho, hn⟩
    refine ⟨(k, n), hmem, ?_⟩
    rw [if_pos hn, ho]

/-- Shared shape of a successful `updateBuyerWithHistory` call: the
returned row is the body-patched row with a bumped `updatedAt`, the row
list is updated in place, and a history entry is appended exactly when
the diff is non-empty. -/
theorem update_ok_characterization (db : DB) (id : String) (buyerData : Body)
    (userId : String) (now : Int) (cur : Buyer) (db' : DB) (b' : Buyer)
    (hfind : getBuyerById db id = some cur)
    (hok : updateBuyerWithHistory db id buyerData userId now = Except.ok (db', b')) :
    b' = { applyBody cur buyerData with updatedAt := now } ∧
    db'.buyers = db.buyers.map (fun x => if x.id == id then b' else x) ∧
    (computeDiff cur buyerData = [] → db'.history = db.history) ∧
    (computeDiff cur buyerData ≠ [] →
      db'.history = db.history ++
        [{ buyerId := id, changedBy := Value.vStr userId,
           diff := HistDiff.changes (computeDiff cur buyerData) }]) := by
  simp only [updateBuyerWithHistory, hfind, updateBuyer] at hok
  split at hok
  · exact absurd hok (by simp)
  · split at hok
    · exact absurd hok (by simp)
    · split at hok
      · simp only [Except.ok.injEq, Prod.mk.injEq] at hok
        obtain ⟨hdb, hb⟩ := hok
        subst hb
        refine ⟨rfl, ?_, ?_, ?_⟩
        · rw [← hdb]
        · intro hnil
          rename_i hlen
          rw [hnil] at hlen
          simp at hlen
        · intro _
          rw [← hdb]
      · simp only [Except.ok.injEq, Prod.mk.injEq] at hok
        obtain ⟨hdb, hb⟩ := hok
        subst hb
        refine ⟨rfl, ?_, ?_, ?_⟩
        · rw [← hdb]
        · intro _
          rw [← hdb]
        · intro hne
          rename_i hlen
          exact absurd (by simpa using List.length_pos_of_ne_nil hne) hlen

/-- C3 counterexample: a body resubmitting the stored tags value —
structurally identical (`[]` on both sides) — still appends a history
row, because the parsed array is a fresh object and JS `!==` on objects
compares references, not contents. -/
theorem identical_tags_append_history_counterexample :
    sampleBuyer.tags = Value.vArr [] ∧
    ((updateBuyerWithHistory sampleDB "b1" [(BodyKey.payload Field.tags, Value.vArr [])]
        "u1" 200).toOption.map (fun p => p.1.history))
      = some [{ buyerId := "b1", changedBy := Value.vStr "u1",
                diff := HistDiff.changes
                  [(BodyKey.payload Field.tags, Value.vArr [], Value.vArr [])] }] := by
  exact ⟨rfl, rfl⟩

/-- C3 (amended): an accepted update appends a history row iff at least
one body entry differs from the stored value under JS strict inequality
(`!==`): structural inequality when both values are primitives, but never
false when either side is an object — the tags array or the stored
updatedAt Date — so identical primitive resubmissions append nothing
while a body carrying a tags entry or a version token always appends. -/
theorem history_appended_iff_changed (db : DB) (id : String) (buyerData : Body)
    (userId : String) (now : Int) (cur : Buyer) (db' : DB) (b' : Buyer)
    (hfind : getBuyerById db id = some cur)
    (hok : updateBuyerWithHistory db id buyerData userId now = Except.ok (db', b')) :
    ((∀ kv ∈ buyerData, jsStrictNeq kv.2 (getDynamic cur kv.1) = false) →
      db'.history = db.history) ∧
    ((∃ kv ∈ buyerData, jsStrictNeq kv.2 (getDynamic cur kv.1) = true) →
      db'.history = db.history ++
        [{ buyerId := id, changedBy := Value.vStr userId,
           diff := HistDiff.changes (computeDiff cur buyerData) }]) ∧
    (∀ v w : Value, jsStrictNeq v w = false ↔
      (isObjectVal v = false ∧ isObjectVal w = false ∧ v = w)) := by
  obtain ⟨-, -, hnil, happ⟩ :=
    update_ok_characterization db id buyerData userId now cur db' b' hfind hok
  refine ⟨?_, ?_, ?_⟩
  · intro h
    exact hnil ((computeDiff_eq_nil_iff cur buyerData).mpr h)
  · rintro ⟨kv, hkv, hne2⟩
    refine happ ?_
    intro hcontra
    have hfalse := (computeDiff_eq_nil_iff cur buyerData).mp hcontra kv hkv
    rw [hne2] at hfalse
    exact Bool.noConfusion hfalse
  · intro v w
    simp only [jsStrictNeq, Bool.or_eq_false_iff, decide_eq_false_iff_not, ne_eq, not_not]
    tauto

/-- Witness for `history_appended_iff_changed`: resubmitting the stored
primitive `status` value appends no history row. -/
theorem history_appended_iff_changed_witness :
    ({ buyers := [{ sampleBuyer with updatedAt := 200 }], history := [] } : DB).history
      = sampleDB.history :=
  (history_appended_iff_changed sampleDB "b1"
      [(BodyKey.payload Field.status, Value.vStr "New")] "u1" 200 sampleBuyer
      { buyers := [{ sampleBuyer with updatedAt := 200 }], history := [] }
      { sampleBuyer with updatedAt := 200 } (by decide) (by rfl)).1 (by decide)

/-- C4 counterexample: a body entry resubmitting the stored tags value —
structurally unchanged — still appears in the computed diff, because the
diff loop's `!==` is reference inequality on arrays. -/
theorem diff_contains_unchanged_tags_counterexample :
    computeDiff sampleBuyer [(BodyKey.payload Field.tags, Value.vArr [])]
      = [(BodyKey.payload Field.tags, Value.vArr [], Value.vArr [])] ∧
    getDynamic sampleBuyer (BodyKey.payload Field.tags) = Value.vArr [] := by
  exact ⟨rfl, rfl⟩

/-- C4 (amended): the recorded diff of an accepted update contains
exactly the body entries whose supplied value differs from the stored one
under JS `!==` — structural inequality on primitives, always true when
either value is an object (tags array, stored Date) — each mapped to the
stored value as `oldValue` and the supplied value as `newValue`; keys not
present in the body never appear, but an object-valued entry appears even
when structurally unchanged. -/
theorem diff_exactness (db : DB) (id : String) (buyerData : Body)
    (userId : String) (now : Int) (cur : Buyer) (db' : DB) (b' : Buyer)
    (hfind : getBuyerById db id = some cur)
    (hok : updateBuyerWithHistory db id buyerData userId now = Except.ok (db', b'))
    (hne : computeDiff cur buyerData ≠ []) :
    db'.history = db.history ++
      [{ buyerId := id, changedBy := Value.vStr userId,
         diff := HistDiff.changes (computeDiff cur buyerData) }] ∧
    (∀ (k : BodyKey) (o n : Value),
      (k, o, n) ∈ computeDiff cur buyerData ↔
        ((k, n) ∈ buyerData ∧ o = getDynamic cur k ∧
          jsStrictNeq n (getDynamic cur k) = true)) ∧
    (∀ v w : Value, isObjectVal v = false → isObjectVal w = false →
      (jsStrictNeq v w = true ↔ v ≠ w)) ∧
    (∀ v w : Value, (isObjectVal v = true ∨ isObjectVal w = true) →
      jsStrictNeq v w = true) := by
  obtain ⟨-, -, -, happ⟩ :=
    update_ok_characterization db id buyerData userId now cur db' b' hfind hok
  refine ⟨happ hne, fun k o n => mem_computeDiff_iff cur buyerData k o n, ?_, ?_⟩
  · intro v w hv hw
    simp [jsStrictNeq, hv, hw]
  · intro v w h
    rcases h with h | h <;> simp [jsStrictNeq, h]

/-- Witness for `diff_exactness`: patching `notes` with a new primitive
value records exactly the one old/new pair. -/
theorem diff_exactness_witness :
    ({ buyers := [{ sampleBuyer with notes := Value.vStr "hi", updatedAt := 200 }],
       history := [{ buyerId := "b1", changedBy := Value.vStr "u1",
                     diff := HistDiff.changes
                       [(BodyKey.payload Field.notes, Value.vNull, Value.vStr "hi")] }] } : DB).history
      = sampleDB.history ++
        [{ buyerId := "b1", changedBy := Value.vStr "u1",
           diff := HistDiff.changes
             (computeDiff sampleBuyer [(BodyKey.payload Field.notes, Value.vStr "hi")]) }] :=
  (diff_exactness sampleDB "b1" [(BodyKey.payload Field.notes, Value.vStr "hi")] "u1" 200
      sampleBuyer
      { buyers := [{ sampleBuyer with notes := Value.vStr "hi", updatedAt := 200 }],
        history := [{ buyerId := "b1", changedBy := Value.vStr "u1",
                      diff := HistDiff.changes
                        [(BodyKey.payload Field.notes, Value.vNull, Value.vStr "hi")] }] }
      { sampleBuyer with notes := Value.vStr "hi", updatedAt := 200 }
      (by decide) (by rfl) (by decide)).1

/-- Replacing the found row in a list keeps it findable under the same
predicate when the replacement keeps the id. -/
theorem find_map_replace (l : List Buyer) (id : String) (b' cur : Buyer)
    (h : l.find? (fun x => x.id == id) = some cur) (hid : b'.id = cur.id) :
    (l.map (fun x => if x.id == id then b' else x)).find? (fun x => x.id == id)
      = some b' := by
  induction l with
  | nil => simp at h
  | cons x xs ih =>
    cases hx : (x.id == id) with
    | true =>
      simp only [List.find?, hx] at h
      injection h with hxc
      subst hxc
      have hb : (b'.id == id) = true := by rw [hid]; exact hx
      simp [List.find?, hx, hb]
    | false =>
      simp only [List.find?, hx] at h
      simp only [List.map_cons, List.find?, hx, Bool.false_eq_true, if_false]
      exact ih h

/-- C10: every accepted update invokes the persistence write
unconditionally: the returned row is the body-patched row with
`updatedAt` bumped to the clock value and it replaces the stored version;
when the computed diff map is empty, this new version has no
corresponding history entry. -/
theorem noop_update_still_persists (db : DB) (id : String) (buyerData : Body)
    (userId : String) (now : Int) (cur : Buyer) (db' : DB) (b' : Buyer)
    (hfind : getBuyerById db id = some cur)
    (hok : updateBuyerWithHistory db id buyerData userId now = Except.ok (db', b')) :
    b'.updatedAt = now ∧
    b' = { applyBody cur buyerData with updatedAt := now } ∧
    getBuyerById db' id = some b' ∧
    (computeDiff cur buyerData = [] → db'.history = db.history) := by
  obtain ⟨hb, hbuyers, hnil, -⟩ :=
    update_ok_characterization db id buyerData userId now cur db' b' hfind hok
  have hid : b'.id = cur.id := by
    rw [hb]
    exact applyBody_id buyerData cur
  refine ⟨by rw [hb], hb, ?_, hnil⟩
  simp only [getBuyerById] at hfind ⊢
  rw [hbuyers]
  exact find_map_replace db.buyers id b' cur hfind hid

/-- Witness for `noop_update_still_persists`: the empty body still bumps
`updatedAt` to 300 and stores a new version with no history row. -/
theorem noop_update_still_persists_witness :
    ({ sampleBuyer with updatedAt := 300 } : Buyer).updatedAt = 300 ∧
    ({ sampleBuyer with updatedAt := 300 } : Buyer)
      = { applyBody sampleBuyer [] with updatedAt := 300 } ∧
    getBuyerById { buyers := [{ sampleBuyer with updatedAt := 300 }], history := [] } "b1"
      = some { sampleBuyer with updatedAt := 300 } ∧
    (computeDiff sampleBuyer ([] : Body) = [] →
      ({ buyers := [{ sampleBuyer with updatedAt := 300 }], history := [] } : DB).history
        = sampleDB.history) :=
  noop_update_still_persists sampleDB "b1" [] "u1" 300 sampleBuyer
    { buyers := [{ sampleBuyer with updatedAt := 300 }], history := [] }
    { sampleBuyer with updatedAt := 300 }
    (by decide) (by rfl)

/-- Writing a field then reading it back gives the written value. -/
theorem getField_setField_same (b : Buyer) (k : Field) (v : Value) :
    getField (setField b k v) k = v := by
  cases k <;> rfl

/-- Writing one field leaves every other field unchanged. -/
theorem getField_setField_ne (b : Buyer) (k1 : Field) (v : Value) (k2 : Field)
    (h : k1 ≠ k2) : getField (setField b k1 v) k2 = getField b k2 := by
  cases k1 <;> cases k2 <;> first | rfl | exact absurd rfl h

/-- A payload key absent from the body is untouched by `applyBody`. -/
theorem getField_applyBody_of_not_mem (k : Field) (buyerData : Body) :
    ∀ b : Buyer, (∀ kv ∈ buyerData, kv.1 ≠ BodyKey.payload k) →
      getField (applyBody b buyerData) k = getField b k := by
  induction buyerData with
  | nil => intro b _; rfl
  | cons kv rest ih =>
    rcases kv with ⟨k1, v1⟩
    intro b h
    cases k1 with
    | payload k2 =>
      have hne : k2 ≠ k := by
        intro heq
        exact h (BodyKey.payload k2, v1) (List.mem_cons_self _ _) (by rw [heq])
      rw [applyBody_cons_payload,
        ih (setField b k2 v1) (fun kv2 h2 => h kv2 (List.mem_cons_of_mem _ h2))]
      exact getField_setField_ne b k2 v1 k hne
    | updatedAtKey =>
      rw [applyBody_cons_updatedAt]
      exact ih b (fun kv2 h2 => h kv2 (List.mem_cons_of_mem _ h2))

/-- With unique body keys, `applyBody` stores exactly the supplied value
for a present payload key and the prior value for an absent one. -/
theorem getField_applyBody_nodup (buyerData : Body) (k : Field) :
    ∀ b : Buyer, (buyerData.map Prod.fst).Nodup →
      getField (applyBody b buyerData) k
        = (bodyGet buyerData (BodyKey.payload k)).getD (getField b k) := by
  induction buyerData with
  | nil => intro b _; rfl
  | cons kv rest ih =>
    rcases kv with ⟨k1, v1⟩
    intro b hnd
    have hnd' : (k1 :: rest.map Prod.fst).Nodup := by simpa using hnd
    by_cases hk : k1 = BodyKey.payload k
    · subst hk
      have hnotin : ∀ kv2 ∈ rest, kv2.1 ≠ BodyKey.payload k := by
        intro kv2 h2 heq
        exact (List.nodup_cons.mp hnd').1 (heq ▸ List.mem_map_of_mem Prod.fst h2)
      rw [applyBody_cons_payload, getField_applyBody_of_not_mem k rest _ hnotin,
        getField_setField_same]
      simp [bodyGet, List.find?]
    · have hkb : (k1 == BodyKey.payload k) = false := beq_eq_false_iff_ne.mpr hk
      have hskip : bodyGet ((k1, v1) :: rest) (BodyKey.payload k)
          = bodyGet rest (BodyKey.payload k) := by
        simp [bodyGet, List.find?, hkb]
      rw [hskip]
      cases k1 with
      | payload k2 =>
        have hne : k2 ≠ k := fun heq => hk (by rw [heq])
        rw [applyBody_cons_payload, ih (setField b k2 v1) (List.nodup_cons.mp hnd').2,
          getField_setField_ne b k2 v1 k hne]
      | updatedAtKey =>
        rw [applyBody_cons_updatedAt]
        exact ih b (List.nodup_cons.mp hnd').2

/-- C2 counterexample: a Plot lead created with a supplied bhk is accepted
and persists that non-null bhk (neither coerced to null nor rejected), and
an accepted update that explicitly sets `bhk` to null on an Apartment lead
persists a residential record with null bhk. -/
theorem bhk_rule_counterexample :
    ((createNewBuyer emptyDB plotWithBhkInput "b9" 100).toOption.map
        (fun p => (p.2.propertyType, p.2.bhk)))
      = some (Value.vStr "Plot", Value.vStr "TWO") ∧
    ((updateBuyerWithHistory sampleDB "b1" [(BodyKey.payload Field.bhk, Value.vNull)]
        "u1" 200).toOption.map (fun p => (p.2.propertyType, p.2.bhk)))
      = some (Value.vStr "Apartment", Value.vNull) := by
  exact ⟨rfl, rfl⟩

/-- C2 (amended): creation rejects a residential lead whose bhk is falsy
(null/absent) with the bhk-required error and otherwise persists the
supplied bhk unchanged — so accepted residential creates carry a truthy
bhk, while non-residential creates keep whatever bhk was supplied; on
update the bhk rule is checked against the `??`-merged candidate, and the
persisted bhk is the raw body value whenever the key is present. -/
theorem bhk_rule_amended :
    (∀ (db : DB) (input : BuyerInput) (newId : String) (now : Int),
      validateBudget input.budgetMin input.budgetMax = false →
      isResidential input.propertyType = true → jsTruthy input.bhk = false →
      createNewBuyer db input newId now = Except.error ServiceError.bhkRequiredError) ∧
    (∀ (db : DB) (input : BuyerInput) (newId : String) (now : Int) (db' : DB) (b : Buyer),
      createNewBuyer db input newId now = Except.ok (db', b) →
      b.bhk = input.bhk ∧ (isResidential b.propertyType = true → jsTruthy b.bhk = true)) ∧
    (∀ (db : DB) (id : String) (buyerData : Body) (userId : String) (now : Int)
        (cur : Buyer) (db' : DB) (b' : Buyer),
      getBuyerById db id = some cur →
      updateBuyerWithHistory db id buyerData userId now = Except.ok (db', b') →
      (isResidential (jsCoalesce (bodyGet buyerData (BodyKey.payload Field.propertyType))
          cur.propertyType) = true →
        jsTruthy (jsCoalesce (bodyGet buyerData (BodyKey.payload Field.bhk)) cur.bhk) = true) ∧
      ((buyerData.map Prod.fst).Nodup →
        b'.bhk = (bodyGet buyerData (BodyKey.payload Field.bhk)).getD cur.bhk)) := by
  refine ⟨?_, ?_, ?_⟩
  · intro db input newId now hbud hres hbhk
    simp [createNewBuyer, hbud, hres, hbhk]
  · intro db input newId now db' b hok
    simp only [createNewBuyer] at hok
    split at hok
    · exact absurd hok (by simp)
    · split at hok
      · exact absurd hok (by simp)
      · rename_i hcheck
        split at hok
        · exact absurd hok (by simp)
        · simp only [Except.ok.injEq, Prod.mk.injEq] at hok
          obtain ⟨-, hb⟩ := hok
          subst hb
          refine ⟨rfl, ?_⟩
          intro hres
          simp only [mkBuyer] at hres ⊢
          simp only [Bool.and_eq_true, Bool.not_eq_true', not_and] at hcheck
          cases hjt : jsTruthy input.bhk with
          | true => rfl
          | false => exact absurd hjt (hcheck hres)
  · intro db id buyerData userId now cur db' b' hfind hok
    have hok2 := hok
    simp only [updateBuyerWithHistory, hfind] at hok
    constructor
    · split at hok
      · exact absurd hok (by simp)
      · split at hok
        · exact absurd hok (by simp)
        · rename_i hcheck
          intro hres
          simp only [Bool.and_eq_true, Bool.not_eq_true', not_and] at hcheck
          cases hjt : jsTruthy (jsCoalesce (bodyGet buyerData (BodyKey.payload Field.bhk)) cur.bhk) with
          | true => rfl
          | false => exact absurd hjt (hcheck hres)
    · intro hnd
      obtain ⟨hb, -, -, -⟩ :=
        update_ok_characterization db id buyerData userId now cur db' b' hfind hok2
      have hread : b'.bhk = getField (applyBody cur buyerData) Field.bhk := by
        rw [hb]
        rfl
      rw [hread, getField_applyBody_nodup buyerData Field.bhk cur hnd]
      rfl

/-- Witness for `bhk_rule_amended`: a residential create with null bhk is
rejected with the bhk-required error. -/
theorem bhk_rule_amended_witness :
    createNewBuyer emptyDB aptNullBhkInput "b9" 100
      = Except.error ServiceError.bhkRequiredError :=
  bhk_rule_amended.1 emptyDB aptNullBhkInput "b9" 100 (by decide) (by decide) (by decide)

/-- C5 counterexample: with `budgetMax = 0` the truthiness guard treats
the bound as absent, so `validateBudget` does not fail and a record with
`budgetMin = 5 > 0 = budgetMax` is accepted and persisted. -/
theorem budget_rule_counterexample :
    validateBudget (Value.vNum 5) (Value.vNum 0) = false ∧
    ((createNewBuyer emptyDB zeroMaxInput "b9" 100).toOption.map
        (fun p => (p.2.budgetMin, p.2.budgetMax)))
      = some (Value.vNum 5, Value.vNum 0) := by
  exact ⟨rfl, rfl⟩

/-- C5 (amended): the budget check fails exactly when both bounds are
present and nonzero and `budgetMin > budgetMax` (a zero bound is treated
as absent by JS truthiness); consequently every accepted create — and
every accepted update with unique body keys — whose persisted bounds are
non-negative numbers with `budgetMax ≠ 0` satisfies
`budgetMin ≤ budgetMax`. -/
theorem budget_rule_amended :
    (∀ a c : Int, validateBudget (Value.vNum a) (Value.vNum c) = true ↔
      (a ≠ 0 ∧ c ≠ 0 ∧ c < a)) ∧
    (∀ (db : DB) (input : BuyerInput) (newId : String) (now : Int) (db' : DB)
        (b : Buyer) (a c : Int),
      createNewBuyer db input newId now = Except.ok (db', b) →
      b.budgetMin = Value.vNum a → b.budgetMax = Value.vNum c →
      0 ≤ a → 0 < c → a ≤ c) ∧
    (∀ (db : DB) (id : String) (buyerData : Body) (userId : String) (now : Int)
        (cur : Buyer) (db' : DB) (b' : Buyer) (a c : Int),
      getBuyerById db id = some cur →
      updateBuyerWithHistory db id buyerData userId now = Except.ok (db', b') →
      (buyerData.map Prod.fst).Nodup →
      b'.budgetMin = Value.vNum a → b'.budgetMax = Value.vNum c →
      0 ≤ a → 0 < c → a ≤ c) := by
  refine ⟨?_, ?_, ?_⟩
  · intro a c
    simp only [validateBudget, jsTruthy, jsNumGt, Bool.and_eq_true, Bool.not_eq_true',
      beq_eq_false_iff_ne, ne_eq, decide_eq_true_eq]
    constructor
    · rintro ⟨⟨ha, hc⟩, hgt⟩
      exact ⟨ha, hc, hgt⟩
    · rintro ⟨ha, hc, hgt⟩
      exact ⟨⟨ha, hc⟩, hgt⟩
  · intro db input newId now db' b a c hok hmin hmax ha hc
    simp only [createNewBuyer] at hok
    split at hok
    · exact absurd hok (by simp)
    · rename_i hbud
      split at hok
      · exact absurd hok (by simp)
      · split at hok
        · exact absurd hok (by simp)
        · simp only [Except.ok.injEq, Prod.mk.injEq] at hok
          obtain ⟨-, hb⟩ := hok
          subst hb
          simp only [mkBuyer] at hmin hmax
          rw [hmin, hmax] at hbud
          simp only [validateBudget, jsTruthy, jsNumGt, Bool.and_eq_true, Bool.not_eq_true',
            beq_eq_false_iff_ne, ne_eq, decide_eq_true_eq, not_and] at hbud
          omega
  · intro db id buyerData userId now cur db' b' a c hfind hok hnd hmin hmax ha hc
    have hok2 := hok
    obtain ⟨hb, -, -, -⟩ :=
      update_ok_characterization db id buyerData userId now cur db' b' hfind hok2
    have hminField : b'.budgetMin
        = (bodyGet buyerData (BodyKey.payload Field.budgetMin)).getD cur.budgetMin := by
      have : b'.budgetMin = getField (applyBody cur buyerData) Field.budgetMin := by
        rw [hb]
        rfl
      rw [this, getField_applyBody_nodup buyerData Field.budgetMin cur hnd]
      rfl
    have hmaxField : b'.budgetMax
        = (bodyGet buyerData (BodyKey.payload Field.budgetMax)).getD cur.budgetMax := by
      have : b'.budgetMax = getField (applyBody cur buyerData) Field.budgetMax := by
        rw [hb]
        rfl
      rw [this, getField_applyBody_nodup buyerData Field.budgetMax cur hnd]
      rfl
    rw [hminField] at hmin
    rw [hmaxField] at hmax
    have hmn : jsCoalesce (bodyGet buyerData (BodyKey.payload Field.budgetMin)) cur.budgetMin
        = Value.vNum a := by
      cases hbg : bodyGet buyerData (BodyKey.payload Field.budgetMin) with
      | none =>
        rw [hbg] at hmin
        simp only [Option.getD_none] at hmin
        simp [jsCoalesce, hmin]
      | some v =>
        rw [hbg] at hmin
        simp only [Option.getD_some] at hmin
        subst hmin
        simp [jsCoalesce]
    have hmx : jsCoalesce (bodyGet buyerData (BodyKey.payload Field.budgetMax)) cur.budgetMax
        = Value.vNum c := by
      cases hbg : bodyGet buyerData (BodyKey.payload Field.budgetMax) with
      | none =>
        rw [hbg] at hmax
        simp only [Option.getD_none] at hmax
        simp [jsCoalesce, hmax]
      | some v =>
        rw [hbg] at hmax
        simp only [Option.getD_some] at hmax
        subst hmax
        simp [jsCoalesce]
    simp only [updateBuyerWithHistory, hfind] at hok
    split at hok
    · exact absurd hok (by simp)
    · rename_i hbud
      rw [hmn, hmx] at hbud
      simp only [validateBudget, jsTruthy, jsNumGt, Bool.and_eq_true, Bool.not_eq_true',
        beq_eq_false_iff_ne, ne_eq, decide_eq_true_eq, not_and] at hbud
      omega

/-- Witness for `budget_rule_amended`: the accepted create with bounds 2
and 3 indeed satisfies the order. -/
theorem budget_rule_amended_witness : (2 : Int) ≤ 3 :=
  budget_rule_amended.2.1 emptyDB okBudgetInput "b9" 100 okBudgetDB okBudgetBuyer 2 3
    (by rfl) (by rfl) (by rfl) (by decide) (by decide)

/-- C6 counterexample: an accepted update whose clock time equals the
stored `updatedAt` (two mutations within the same millisecond) yields an
equal, not strictly greater, `updatedAt`. -/
theorem updatedAt_not_strict_counterexample :
    ((updateBuyerWithHistory sampleDB "b1" [(BodyKey.payload Field.notes, Value.vStr "x")]
        "u1" 100).toOption.map (fun p => p.2.updatedAt)) = some 100 ∧
    (getBuyerById sampleDB "b1").map (fun b => b.updatedAt) = some 100 := by
  exact ⟨rfl, rfl⟩

/-- C6 (amended): an accepted persistence update sets `updatedAt` to the
mutation's clock value, so it strictly exceeds the previous stored value
exactly when the clock strictly advanced between the two mutations. -/
theorem updatedAt_bumped_to_clock (db : DB) (id : String) (buyerData : Body)
    (now : Int) (cur : Buyer) (db' : DB) (b' : Buyer)
    (hfind : getBuyerById db id = some cur)
    (hok : updateBuyer db id buyerData now = some (db', b')) :
    b'.updatedAt = now ∧ (cur.updatedAt < now → cur.updatedAt < b'.updatedAt) := by
  simp only [updateBuyer, hfind, Option.some.injEq, Prod.mk.injEq] at hok
  obtain ⟨-, hb⟩ := hok
  subst hb
  exact ⟨rfl, fun h => h⟩

/-- Witness for `updatedAt_bumped_to_clock` at clock value 200 on a row
last updated at 100. -/
theorem updatedAt_bumped_to_clock_witness :
    ({ sampleBuyer with updatedAt := 200 } : Buyer).updatedAt = 200 ∧
    (sampleBuyer.updatedAt < 200 →
      sampleBuyer.updatedAt < ({ sampleBuyer with updatedAt := 200 } : Buyer).updatedAt) :=
  updatedAt_bumped_to_clock sampleDB "b1" [] 200 sampleBuyer
    { buyers := [{ sampleBuyer with updatedAt := 200 }], history := [] }
    { sampleBuyer with updatedAt := 200 } (by decide) (by rfl)

/-- `storeSet` on a non-matching head rewrites only the tail. -/
theorem storeSet_cons_ne (x : String × RateLimitEntry) (xs : RateLimitStore)
    (k : String) (e : RateLimitEntry) (hx : (x.1 == k) = false) :
    storeSet (x :: xs) k e = x :: storeSet xs k e := by
  simp only [storeSet, List.find?, hx]
  by_cases hs : (List.find? (fun kv => kv.1 == k) xs).isSome = true
  · simp [hs, hx]
    intro h
    exact absurd h (beq_eq_false_iff_ne.mp hx)
  · simp [hs, hx]

/-- `storeSet` on a matching head replaces it. -/
theorem storeSet_cons_eq (x : String × RateLimitEntry) (xs : RateLimitStore)
    (k : String) (e : RateLimitEntry) (hx : (x.1 == k) = true) :
    storeSet (x :: xs) k e
      = (k, e) :: xs.map (fun kv => if kv.1 == k then (k, e) else kv) := by
  simp only [storeSet, List.find?, hx]
  simp [hx]
  intro h
  exact absurd (beq_iff_eq.mp hx) h

/-- Reading back a freshly written client entry. -/
theorem storeGet_storeSet (store : RateLimitStore) (k : String) (e : RateLimitEntry) :
    storeGet (storeSet store k e) k = some e := by
  induction store with
  | nil => simp [storeGet, storeSet, List.find?]
  | cons x xs ih =>
    cases hx : (x.1 == k) with
    | true =>
      rw [storeSet_cons_eq x xs k e hx]
      simp [storeGet, List.find?]
    | false =>
      rw [storeSet_cons_ne x xs k e hx]
      simp only [storeGet, List.find?, hx] at ih ⊢
      exact ih

/-- A client with no entry is admitted and gets a fresh window. -/
theorem isRateLimited_fresh (store : RateLimitStore) (k : String) (now : Int)
    (h : storeGet store k = none) :
    isRateLimited store k now
      = (false, storeSet store k { count := 1, resetTime := now + RATE_LIMIT_WINDOW }) := by
  simp [isRateLimited, h]

/-- A request at or after the reset time is admitted with a fresh window. -/
theorem isRateLimited_expired (store : RateLimitStore) (k : String) (now : Int)
    (cd : RateLimitEntry) (h : storeGet store k = some cd) (hexp : cd.resetTime ≤ now) :
    isRateLimited store k now
      = (false, storeSet store k { count := 1, resetTime := now + RATE_LIMIT_WINDOW }) := by
  simp [isRateLimited, h, hexp]

/-- An in-window request under the limit is admitted and counted. -/
theorem isRateLimited_active (store : RateLimitStore) (k : String) (now : Int)
    (cd : RateLimitEntry) (h : storeGet store k = some cd) (hact : now < cd.resetTime)
    (hc : cd.count < RATE_LIMIT_MAX_REQUESTS) :
    isRateLimited store k now
      = (false, storeSet store k { count := cd.count + 1, resetTime := cd.resetTime }) := by
  simp [isRateLimited, h, not_le.mpr hact, hc]

/-- An in-window request at the limit is rejected and the store is
unchanged. -/
theorem isRateLimited_exhausted (store : RateLimitStore) (k : String) (now : Int)
    (cd : RateLimitEntry) (h : storeGet store k = some cd) (hact : now < cd.resetTime)
    (hc : ¬cd.count < RATE_LIMIT_MAX_REQUESTS) :
    isRateLimited store k now = (true, store) := by
  simp [isRateLimited, h, not_le.mpr hact, hc]

/-- Flag sequence of an in-window run starting from count `c`: request `i`
is rejected exactly when `c + i` has reached the limit. -/
theorem rlRun_flags_active (ts : List Int) :
    ∀ (store : RateLimitStore) (k : String) (c : Nat) (r : Int),
      storeGet store k = some { count := c, resetTime := r } →
      (∀ t ∈ ts, t < r) →
      (rlRun store k ts).1
        = (List.range ts.length).map (fun i => decide (RATE_LIMIT_MAX_REQUESTS ≤ c + i)) := by
  induction ts with
  | nil => intro store k c r _ _; rfl
  | cons t ts ih =>
    intro store k c r hget hin
    have hact : t < r := hin t (List.mem_cons_self _ _)
    by_cases hc : c < RATE_LIMIT_MAX_REQUESTS
    · simp only [rlRun, isRateLimited_active store k t ⟨c, r⟩ hget hact hc]
      rw [ih (storeSet store k { count := c + 1, resetTime := r }) k (c + 1) r
        (storeGet_storeSet store k _) (fun t2 ht2 => hin t2 (List.mem_cons_of_mem _ ht2))]
      rw [List.length_cons, List.range_succ_eq_map, List.map_cons, List.map_map]
      congr 1
      · symm
        rw [decide_eq_false_iff_not]
        omega
      · apply List.map_congr_left
        intro i _
        simp only [Function.comp]
        rw [decide_eq_decide]
        omega
    · simp only [rlRun, isRateLimited_exhausted store k t ⟨c, r⟩ hget hact hc]
      rw [ih store k c r hget (fun t2 ht2 => hin t2 (List.mem_cons_of_mem _ ht2))]
      rw [List.length_cons, List.range_succ_eq_map, List.map_cons, List.map_map]
      congr 1
      · symm
        rw [decide_eq_true_eq]
        omega
      · apply List.map_congr_left
        intro i _
        simp only [Function.comp]
        rw [decide_eq_decide]
        omega

/-- C7: starting from a fresh window, the fixed-window limiter admits
exactly the first `RATE_LIMIT_MAX_REQUESTS` requests whose timestamps fall
before the window's reset time and rejects every further one in that
window; and any request arriving at or after a window's reset time is
admitted and starts a fresh window with count 1. -/
theorem rate_limiter_fixed_window (store : RateLimitStore) (key : String)
    (t0 : Int) (rest : List Int)
    (hfresh : storeGet store key = none)
    (hin : ∀ t ∈ rest, t < t0 + RATE_LIMIT_WINDOW) :
    (rlRun store key (t0 :: rest)).1
      = (List.range (rest.length + 1)).map
          (fun i => decide (RATE_LIMIT_MAX_REQUESTS ≤ i)) ∧
    (∀ (s : RateLimitStore) (now : Int) (cd : RateLimitEntry),
      storeGet s key = some cd → cd.resetTime ≤ now →
      isRateLimited s key now
        = (false, storeSet s key { count := 1, resetTime := now + RATE_LIMIT_WINDOW })) := by
  constructor
  · simp only [rlRun, isRateLimited_fresh store key t0 hfresh]
    rw [rlRun_flags_active rest (storeSet store key _) key 1 (t0 + RATE_LIMIT_WINDOW)
      (storeGet_storeSet _ _ _) hin]
    rw [List.range_succ_eq_map, List.map_cons, List.map_map]
    congr 1
    apply List.map_congr_left
    intro i _
    simp only [Function.comp]
    rw [decide_eq_decide]
    omega
  · intro s now cd h hexp
    exact isRateLimited_expired s key now cd h hexp

/-- Witness for `rate_limiter_fixed_window`: 12 requests inside one
window from a fresh client admit the first 10 and reject the last 2. -/
theorem rate_limiter_fixed_window_witness :
    (rlRun [] "k" (0 :: List.replicate 11 5)).1
      = (List.range 12).map (fun i => decide (RATE_LIMIT_MAX_REQUESTS ≤ i)) :=
  (rate_limiter_fixed_window [] "k" 0 (List.replicate 11 5) (by rfl) (by decide)).1

/-- C8 counterexample: with the requesting client's window already
exhausted (count 10, reset still pending at time 500 < 1000), an update
request is still fully processed — the PUT handler never consults the
rate limiter, the row is written and a history entry appended. -/
theorem mutation_rate_limit_counterexample :
    (isRateLimited exhaustedRL "c" 500).1 = true ∧
    (PUT { db := sampleDB, rl := exhaustedRL } (some "u1") "b1"
        [(BodyKey.payload Field.notes, Value.vStr "hi")] 500).1
      = PutResult.ok { sampleBuyer with notes := Value.vStr "hi", updatedAt := 500 } ∧
    (PUT { db := sampleDB, rl := exhaustedRL } (some "u1") "b1"
        [(BodyKey.payload Field.notes, Value.vStr "hi")] 500).2.db.history
      = [{ buyerId := "b1", changedBy := Value.vStr "u1",
           diff := HistDiff.changes
             [(BodyKey.payload Field.notes, Value.vNull, Value.vStr "hi")] }] := by
  exact ⟨rfl, rfl, rfl⟩

/-- C8 (amended): only the create route submits to the rate limiter — a
POST from a client with an exhausted window is rejected up front with the
whole server state unchanged (so no validation, persistence write or
history append happened); the PUT (update) route never consults the
limiter: it leaves the store unchanged and its outcome is independent of
the store's contents. -/
theorem rate_limit_gate_only_on_create :
    (∀ (st : ServerState) (clientId : String) (userId : Option String)
        (body : BuyerInput) (newId : String) (now : Int) (cd : RateLimitEntry),
      storeGet st.rl clientId = some cd → now < cd.resetTime →
      RATE_LIMIT_MAX_REQUESTS ≤ cd.count →
      POST st clientId userId body newId now = (PostResult.rateLimitedResult, st)) ∧
    (∀ (st : ServerState) (userId : Option String) (id : String) (body : Body)
        (now : Int),
      (PUT st userId id body now).2.rl = st.rl ∧
      (∀ rl2 : RateLimitStore,
        (PUT { db := st.db, rl := rl2 } userId id body now).1
          = (PUT st userId id body now).1)) := by
  constructor
  · intro st clientId userId body newId now cd hget hact hcount
    have hlim := isRateLimited_exhausted st.rl clientId now cd hget hact (by omega)
    simp [POST, hlim]
  · intro st userId id body now
    constructor
    · simp only [PUT, putAfterVersionCheck]
      repeat' (first | rfl | split)
    · intro rl2
      simp only [PUT, putAfterVersionCheck]
      repeat' (first | rfl | split)

/-- Witness for `rate_limit_gate_only_on_create`: a create from client
"c" with its window exhausted is rejected and the state is untouched. -/
theorem rate_limit_gate_only_on_create_witness :
    POST { db := sampleDB, rl := exhaustedRL } "c" (some "u1") baseInput "b9" 500
      = (PostResult.rateLimitedResult, { db := sampleDB, rl := exhaustedRL }) :=
  rate_limit_gate_only_on_create.1 { db := sampleDB, rl := exhaustedRL } "c" (some "u1")
    baseInput "b9" 500 { count := 10, resetTime := 1000 } (by rfl) (by decide) (by decide)

/-- C9: the service accepts an `ownerId` filter but `getBuyers` drops it —
a listing filtered to owner "u1" still returns the lead owned by "u2"
(evaluated at the concrete failing input). -/
theorem owner_filter_ignored :
    (getBuyersWithPagination { buyers := [sampleBuyer, otherBuyer], history := [] }
        1 10 ownerFilter).1
      = [sampleBuyer, otherBuyer] ∧
    otherBuyer.ownerId = Value.vStr "u2" ∧
    ownerFilter.ownerId = some "u1" := by
  exact ⟨rfl, rfl, rfl⟩

end Spec2Proof
